import Mathlib

/-!
Shallow embedding of the panel-elements provisioning reconciliation engine
(`pkg/services/provisioning/panel-elements/file_reader.go`,
`config_reader.go` and the accompanying config-mapping file).

Conventions of the embedding:
* Go `(value, error)` pairs become `value × Option Err` when the caller
  inspects both components, and `Except Err value` when the caller aborts
  on a non-nil error without using the value.
* The opaque collaborators (filesystem, storage service, JSON parsing,
  symlink resolution, md5) are an explicit environment `Env` of pure
  oracle functions; a scan is a pure function of the environment.
* Mutating storage operations are not applied; they are recorded as a
  trace of `StorageCall` values in the order the Go code issues them.
* Locks (`fr.mux`) only guard field access in Go; field reads are modelled
  as plain projections.
-/

namespace Panelelements

/-- Errors. Sentinel errors from the Go code are constructors, so that
`errors.Is` becomes constructor equality; `fmt.Errorf` wrapping with `%w`
is the recursive `cantProvisionFolder` constructor. -/
inductive Err where
  | folderNameMissing
  | libraryElementsNotFound
  | notAFolder
  | nameNotUnique (name : String)
  | ioError (msg : String)
  | parseError (msg : String)
  | storageError (msg : String)
  | cantProvisionFolder (name : String) (cause : Err)
  deriving Repr, DecidableEq

/-- Char-list prefix test, the model of `strings.HasPrefix` (Go compares
byte sequences; we compare the character sequences of the two strings). -/
def listIsPrefixOf : List Char → List Char → Bool
  | [], _ => true
  | _ :: _, [] => false
  | a :: as, b :: bs => a == b && listIsPrefixOf as bs

/-- `strings.HasPrefix s pre`. -/
def strHasPrefix (s pre : String) : Bool := listIsPrefixOf pre.data s.data

/-- `strings.HasSuffix s suf`. -/
def strHasSuffix (s suf : String) : Bool := listIsPrefixOf suf.data.reverse s.data.reverse

/-- The slice of `os.FileInfo` the reader consults: name, directory bit,
modification time (seconds). -/
structure FileInfo where
  name : String
  isDir : Bool
  modTime : Int
  deriving Repr, DecidableEq

/-- A filesystem subtree, as enumerated by `filepath.Walk`. -/
inductive FsEntry where
  | file (name : String) (modTime : Int) : FsEntry
  | dir (name : String) (children : List FsEntry) : FsEntry

def entryName : FsEntry → String
  | .file name _ => name
  | .dir name _ => name

/-- `validateWalkablePath`: directories are never added to the result; a
directory whose name starts with "." returns `filepath.SkipDir`; files are
added exactly when their name ends in ".json". -/
def validateWalkablePath (fileInfo : FileInfo) : Bool × Bool :=
  -- (isValid, skipDirSubtree)
  if fileInfo.isDir then
    if strHasPrefix fileInfo.name "." then (false, true) else (false, false)
  else
    if strHasSuffix fileInfo.name ".json" then (true, false) else (false, false)

mutual
/-- `filepath.Walk` driven by `createWalkFn`: `walkFrom p e` enumerates the
".json" files of the subtree `e`, where `p` is the full path of `e` itself
(paths are component lists). Hidden directories are pruned whole. -/
def walkFrom (p : List String) : FsEntry → List (List String × FileInfo)
  | .file name modTime =>
    if strHasSuffix name ".json" then [(p, ⟨name, false, modTime⟩)] else []
  | .dir name children =>
    if strHasPrefix name "." then [] else walkList p children

def walkList (parentPath : List String) : List FsEntry → List (List String × FileInfo)
  | [] => []
  | e :: es => walkFrom (parentPath ++ [entryName e]) e ++ walkList parentPath es
end

/-- Reference characterisation for the walk: `WalksTo e rel fi` holds when,
starting from the entry `e`, following the relative path `rel` through
non-hidden directories reaches the regular file described by `fi`, whose
name ends in ".json". -/
inductive WalksTo : FsEntry → List String → FileInfo → Prop where
  | file (name : String) (modTime : Int) (h : strHasSuffix name ".json" = true) :
      WalksTo (.file name modTime) [] ⟨name, false, modTime⟩
  | dir (name : String) (children : List FsEntry) (c : FsEntry) (rel : List String)
      (fi : FileInfo) (hn : strHasPrefix name "." = false) (hc : c ∈ children)
      (hw : WalksTo c rel fi) :
      WalksTo (.dir name children) (entryName c :: rel) fi

/-- `config` (the per-provider provisioning source configuration). The
opaque `Options` map is omitted: it is only probed in the constructor
(`NewLibraryElementsFileReader`), which is not part of the modelled
operations; its results surface as the `Path`/`FoldersFromFilesStructure`
fields of `FileReader`. Go's `Type` field is `Type'` (Lean keyword). -/
structure config where
  Name : String
  Type' : String
  OrgID : Int
  Folder : String
  FolderUID : String
  Editable : Bool
  DisableDeletion : Bool
  UpdateIntervalSeconds : Int
  AllowUIUpdates : Bool
  deriving Repr, DecidableEq

/-- `libraryelements.LibraryElementsProvisioning`, the persisted
provisioned-record reference (also standing for the
`models.LibraryElementsProvisioning` literal built on save). -/
structure LibraryElementsProvisioning where
  ExternalId : List String
  Name : String
  Updated : Int
  CheckSum : String
  LibraryElementsId : Int
  deriving Repr, DecidableEq

/-- The structured content a definition file parses to (the fields of the
opaque record schema that the reader actually consults). -/
structure ParsedElement where
  uid : String
  title : String
  id : Int
  deriving Repr, DecidableEq

/-- The fields of a library element the reader reads or writes. -/
structure LibraryElement where
  uid : String
  title : String
  id : Int
  folderId : Int
  orgID : Int
  deriving Repr, DecidableEq

/-- `libraryelements.SaveLibraryElementDTO` as stamped by
`createLibraryElementsJSON`. -/
structure SaveLibraryElementDTO where
  libraryElement : LibraryElement
  updatedAt : Int
  overwrite : Bool
  orgId : Int
  deriving Repr, DecidableEq

/-- `createLibraryElementsJSON` (defined as `createPanelElementsJSON` in the
config-mapping file; `file_reader.go` calls it under this name): stamp the
parsed data with org id, the resolved folder id, `overwrite = true` and the
file's modification time. -/
def createLibraryElementsJSON (data : ParsedElement) (lastModified : Int)
    (cfg : config) (folderID : Int) : SaveLibraryElementDTO :=
  { libraryElement :=
      { uid := data.uid, title := data.title, id := data.id,
        folderId := folderID, orgID := cfg.OrgID },
    updatedAt := lastModified, overwrite := true, orgId := cfg.OrgID }

structure LibraryElementsJSONFile where
  LibraryElements : SaveLibraryElementDTO
  checkSum : String
  lastModified : Int
  deriving Repr, DecidableEq

structure LibraryElementsIdentity where
  folderID : Int
  title : String
  deriving Repr, DecidableEq

def LibraryElementsIdentity.ExistsB (d : LibraryElementsIdentity) : Bool :=
  0 < d.title.length

structure provisioningMetadata where
  uid : String
  identity : LibraryElementsIdentity
  deriving Repr, DecidableEq

/-- The Go zero value of `provisioningMetadata`. -/
def provisioningMetadataEmpty : provisioningMetadata :=
  { uid := "", identity := { folderID := 0, title := "" } }

/-- `usageTracker`: occurrence counts by uid and by identity, modelled as
count functions (Go: maps defaulting to 0). -/
structure usageTracker where
  uidUsage : String → Nat
  titleUsage : LibraryElementsIdentity → Nat

def newUsageTracker : usageTracker := ⟨fun _ => 0, fun _ => 0⟩

def usageTracker.track (t : usageTracker) (pm : provisioningMetadata) : usageTracker :=
  { uidUsage := fun u =>
      if 0 < pm.uid.length ∧ u = pm.uid then t.uidUsage u + 1 else t.uidUsage u,
    titleUsage := fun i =>
      if pm.identity.ExistsB = true ∧ i = pm.identity then t.titleUsage i + 1
      else t.titleUsage i }

/-- One mutating call issued to the storage service, in issue order. -/
inductive StorageCall where
  | save (externalId : List String) (name : String) (updated : Int)
      (checkSum : String) (folderId : Int)
  | delete (libraryElementsId : Int) (orgId : Int)
  | unprovision (libraryElementsId : Int)
  | saveFolder (folderName : String) (folderUID : String) (orgId : Int)
  deriving Repr, DecidableEq

/-- Result of the `GetLibraryElementsQuery` bus dispatch. -/
structure FolderQueryResult where
  Id : Int
  IsFolder : Bool
  deriving Repr, DecidableEq

/-- The environment: the filesystem and the opaque collaborators
(`os`, `filepath`, `ioutil`, `simplejson` + `createLibraryElementsJSON`
input, md5, the storage service and the bus), as pure oracles. -/
structure Env where
  /-- `filepath.EvalSymlinks`: Go returns `(resolved, err)`. -/
  evalSymlinks : List String → (List String × Option Err)
  /-- `os.Lstat`. -/
  lstat : List String → Except Err FileInfo
  /-- `os.Open` + `ioutil.ReadAll`: the file's byte content. -/
  readFile : List String → Except Err String
  /-- `util.Md5SumString` (cannot fail on a byte string). -/
  checksum : String → String
  /-- `simplejson.NewJson`: parse, yielding the consulted fields. -/
  parse : String → Except Err ParsedElement
  /-- `LibraryElementsProvisioningService.GetProvisionedLibraryElementsData`. -/
  getProvisionedData : String → Except Err (List LibraryElementsProvisioning)
  /-- `models.SlugifyTitle`. -/
  slugify : String → String
  /-- `bus.Dispatch` of `GetLibraryElementsQuery{Slug, OrgId}`. -/
  folderQuery : String → Int → Except Err FolderQueryResult
  /-- `SaveFolderForProvisionedLibraryElements`; `.ok` carries the created
  folder's id (`dbDash.Id`). -/
  saveFolderForProvisioned : String → String → Int → Except Err Int
  /-- Error outcome of `SaveProvisionedLibraryElements` (result value is
  discarded by the caller). -/
  saveProvisioned : List String → LibraryElement → Option Err
  /-- `os.Stat` on the resolved root (`walkDisk` aborts on error). -/
  statRootErr : List String → Option Err
  /-- `fr.resolvedPath()`: `Abs` + `EvalSymlinks` with fallback, an OS
  oracle from the configured path to the resolved root. -/
  resolveRoot : List String → List String
  /-- The directory tree rooted at the resolved root. -/
  rootTree : FsEntry
  /-- An I/O error during `filepath.Walk` (aborts the scan). -/
  walkErr : Option Err

/-- `FileReader` (lock and logger elided; `usageTracker'` is the
`usageTracker` field, renamed to avoid shadowing its type). -/
structure FileReader where
  Cfg : config
  Path : List String
  FoldersFromFilesStructure : Bool
  usageTracker' : usageTracker
  dbWriteAccessRestricted : Bool

def FileReader.isDatabaseAccessRestricted (fr : FileReader) : Bool :=
  fr.dbWriteAccessRestricted

/-- The `byPath` map built by `getProvisionedLibraryElementssByPath`:
inserting each entry keyed by `ExternalID`, a later entry replacing an
earlier one with the same key (Go map assignment). -/
def byPath (arr : List LibraryElementsProvisioning) : List LibraryElementsProvisioning :=
  arr.foldl (fun acc pd => acc.filter (fun q => q.ExternalId ≠ pd.ExternalId) ++ [pd]) []

/-- Lookup in the `byPath` map. -/
def byPathLookup (m : List LibraryElementsProvisioning) (path : List String) :
    Option LibraryElementsProvisioning :=
  m.find? (fun pd => pd.ExternalId == path)

def getProvisionedLibraryElementssByPath (env : Env) (name : String) :
    Except Err (List LibraryElementsProvisioning) :=
  match env.getProvisionedData name with
  | .error e => .error e
  | .ok arr => .ok (byPath arr)

/-- `resolveSymlink`. Go returns the pair `(fileinfo, err)`; in the
`path == checkFilepath` branch both the original fileinfo and the
`EvalSymlinks` error are returned together, and the only caller
(`saveLibraryElements`) aborts whenever the error is non-nil without using
the fileinfo, so the pair collapses to `Except`. -/
def resolveSymlink (env : Env) (fileinfo : FileInfo) (path : List String) :
    Except Err FileInfo :=
  let r := env.evalSymlinks path
  if path ≠ r.1 then
    env.lstat r.1
  else
    match r.2 with
    | some e => .error e
    | none => .ok fileinfo

/-- `readLibraryElementsFromFile`: read all bytes, md5 them, parse, build
the persistence-ready record. -/
def readLibraryElementsFromFile (env : Env) (cfg : config) (path : List String)
    (lastModified : Int) (folderID : Int) : Except Err LibraryElementsJSONFile :=
  match env.readFile path with
  | .error e => .error e
  | .ok all =>
    let checkSum := env.checksum all
    match env.parse all with
    | .error e => .error e
    | .ok data =>
      .ok { LibraryElements := createLibraryElementsJSON data lastModified cfg folderID,
            checkSum := checkSum, lastModified := lastModified }

/-- The `upToDate` computation of `saveLibraryElements`:
`upToDate := alreadyProvisioned; if provisionedData != nil { upToDate =
checkSum == provisionedData.CheckSum }`. The `byPath` map stores no nil
pointers, so `alreadyProvisioned` is exactly `lookup ≠ none`, and the
stored-checksum comparison governs whenever an entry exists. -/
def isUpToDate (m : List LibraryElementsProvisioning) (path : List String)
    (checkSum : String) : Bool :=
  match byPathLookup m path with
  | some provisionedData => checkSum == provisionedData.CheckSum
  | none => false

/-- `getOrCreateFolderID`. Returns Go's `(folderID, err)` pair plus the
trace of folder-creation calls issued. -/
def getOrCreateFolderID (env : Env) (cfg : config) (folderName : String) :
    Int × Option Err × List StorageCall :=
  if folderName = "" then (0, some Err.folderNameMissing, [])
  else
    match env.folderQuery (env.slugify folderName) cfg.OrgID with
    | .error e =>
      if e = Err.libraryElementsNotFound then
        -- folder not found: create one, honoring cfg.FolderUID
        match env.saveFolderForProvisioned folderName cfg.FolderUID cfg.OrgID with
        | .error e2 => (0, some e2, [StorageCall.saveFolder folderName cfg.FolderUID cfg.OrgID])
        | .ok dbDashId => (dbDashId, none, [StorageCall.saveFolder folderName cfg.FolderUID cfg.OrgID])
      else (0, some e, [])
    | .ok result =>
      if result.IsFolder = false then (0, some Err.notAFolder, [])
      else (result.Id, none, [])

/-- `saveLibraryElements`: returns Go's `(provisioningMetadata, err)` pair
plus the trace of save calls issued (a failing save call is still an
issued call). A load failure is logged and returns a nil error. -/
def saveLibraryElements (env : Env) (fr : FileReader) (path : List String)
    (folderID : Int) (fileInfo : FileInfo) (m : List LibraryElementsProvisioning) :
    provisioningMetadata × Option Err × List StorageCall :=
  match resolveSymlink env fileInfo path with
  | .error e => (provisioningMetadataEmpty, some e, [])
  | .ok resolvedFileInfo =>
    let provisionedData := byPathLookup m path
    match readLibraryElementsFromFile env fr.Cfg path resolvedFileInfo.modTime folderID with
    | .error _ => (provisioningMetadataEmpty, none, [])
    | .ok jsonFile =>
      let upToDate := isUpToDate m path jsonFile.checkSum
      let panel := jsonFile.LibraryElements
      let pm : provisioningMetadata :=
        { uid := panel.libraryElement.uid,
          identity := { title := panel.libraryElement.title,
                        folderID := panel.libraryElement.folderId } }
      if upToDate then (pm, none, [])
      else
        -- ids are assigned by storage: clear a nonzero id from the file
        let panel := if panel.libraryElement.id ≠ 0 then
            { panel with libraryElement := { panel.libraryElement with id := 0 } }
          else panel
        -- re-attach the storage-assigned id when already provisioned
        let panel := match provisionedData with
          | some pd =>
            { panel with libraryElement := { panel.libraryElement with id := pd.LibraryElementsId } }
          | none => panel
        if fr.isDatabaseAccessRestricted = false then
          let call := StorageCall.save path fr.Cfg.Name resolvedFileInfo.modTime
            jsonFile.checkSum panel.libraryElement.folderId
          match env.saveProvisioned path panel.libraryElement with
          | some e => (pm, some e, [call])
          | none => (pm, none, [call])
        else (pm, none, [])

/-- `handleMissingLibraryElementsFiles`: unprovision or delete records whose
file is missing on disk. Per-record service errors are only logged in Go
and affect no control flow, so the trace is the full list of issued calls. -/
def handleMissingLibraryElementsFiles (fr : FileReader)
    (m : List LibraryElementsProvisioning)
    (filesFoundOnDisk : List (List String × FileInfo)) : List StorageCall :=
  let LibraryElementssToDelete :=
    (m.filter (fun pd => !(filesFoundOnDisk.any (fun x => x.1 == pd.ExternalId)))).map
      (fun pd => pd.LibraryElementsId)
  if fr.Cfg.DisableDeletion then
    LibraryElementssToDelete.map (fun id => StorageCall.unprovision id)
  else
    LibraryElementssToDelete.map (fun id => StorageCall.delete id fr.Cfg.OrgID)

/-- The folder-name computation of
`storeLibraryElementsInFoldersFromFileStructure`: `filepath.Dir` is
`dropLast` on component paths, `filepath.Base` is the last component. -/
def mirroredFolderName (resolvedPath : List String) (path : List String) : String :=
  let LibraryElementsFolder := path.dropLast
  if LibraryElementsFolder ≠ resolvedPath then LibraryElementsFolder.getLastD ""
  else ""

/-- The `for path, fileInfo := range filesFoundOnDisk` loop of
`storeDashboardsInFolder` (the flat-mode store; the file names it
`storeDashboardsInFolder` / `saveDashboard` from an incomplete rename, and
`walkDisk` invokes it as `storeLibraryElementsInFolder`): a failed save is
logged and skipped before the usage tracker is updated. -/
def storeDashboardsInFolderLoop (env : Env) (fr : FileReader) (folderID : Int)
    (m : List LibraryElementsProvisioning) :
    List (List String × FileInfo) → usageTracker →
    usageTracker × Option Err × List StorageCall
  | [], t => (t, none, [])
  | (path, fileInfo) :: rest, t =>
    let s := saveLibraryElements env fr path folderID fileInfo m
    match s.2.1 with
    | some _ =>
      let r := storeDashboardsInFolderLoop env fr folderID m rest t
      (r.1, r.2.1, s.2.2 ++ r.2.2)
    | none =>
      let r := storeDashboardsInFolderLoop env fr folderID m rest (t.track s.1)
      (r.1, r.2.1, s.2.2 ++ r.2.2)

/-- `storeDashboardsInFolder`: resolve the configured folder once (an error
other than `ErrFolderNameMissing` aborts), then save every file into it. -/
def storeDashboardsInFolder (env : Env) (fr : FileReader)
    (filesFoundOnDisk : List (List String × FileInfo))
    (m : List LibraryElementsProvisioning) (t : usageTracker) :
    usageTracker × Option Err × List StorageCall :=
  let f := getOrCreateFolderID env fr.Cfg fr.Cfg.Folder
  match f.2.1 with
  | some e =>
    if e ≠ Err.folderNameMissing then (t, some e, f.2.2)
    else
      let r := storeDashboardsInFolderLoop env fr f.1 m filesFoundOnDisk t
      (r.1, r.2.1, f.2.2 ++ r.2.2)
  | none =>
    let r := storeDashboardsInFolderLoop env fr f.1 m filesFoundOnDisk t
    (r.1, r.2.1, f.2.2 ++ r.2.2)

/-- `storeLibraryElementsInFoldersFromFileStructure` (mirrored mode): per
file, derive the folder name from the parent directory, resolve or create
that folder (a failure other than `ErrFolderNameMissing` aborts the whole
pass with a wrapped error), save, and track the returned metadata BEFORE
inspecting the save error, which is only logged. -/
def storeLibraryElementsInFoldersFromFileStructure (env : Env) (fr : FileReader)
    (m : List LibraryElementsProvisioning) (resolvedPath : List String) :
    List (List String × FileInfo) → usageTracker →
    usageTracker × Option Err × List StorageCall
  | [], t => (t, none, [])
  | (path, fileInfo) :: rest, t =>
    let folderName := mirroredFolderName resolvedPath path
    let f := getOrCreateFolderID env fr.Cfg folderName
    let cont :=
      let s := saveLibraryElements env fr path f.1 fileInfo m
      let r := storeLibraryElementsInFoldersFromFileStructure env fr m resolvedPath
        rest (t.track s.1)
      (r.1, r.2.1, f.2.2 ++ s.2.2 ++ r.2.2)
    match f.2.1 with
    | some e =>
      if e = Err.folderNameMissing then cont
      else (t, some (Err.cantProvisionFolder folderName e), f.2.2)
    | none => cont

/-- `walkDisk`, one scan: resolve the root, fetch provisioned refs, walk
the tree (steps 1-3, each aborting on error), then the deletion pass, the
placement/save pass, and on success the atomic usage-tracker swap. -/
def walkDisk (env : Env) (fr : FileReader) :
    FileReader × Option Err × List StorageCall :=
  let resolvedPath := env.resolveRoot fr.Path
  match env.statRootErr resolvedPath with
  | some e => (fr, some e, [])
  | none =>
    match getProvisionedLibraryElementssByPath env fr.Cfg.Name with
    | .error e => (fr, some e, [])
    | .ok provisionedLibraryElementsRefs =>
      match env.walkErr with
      | some e => (fr, some e, [])
      | none =>
        let filesFoundOnDisk := walkFrom resolvedPath env.rootTree
        let missingCalls := handleMissingLibraryElementsFiles fr
          provisionedLibraryElementsRefs filesFoundOnDisk
        let r :=
          if fr.FoldersFromFilesStructure then
            storeLibraryElementsInFoldersFromFileStructure env fr
              provisionedLibraryElementsRefs resolvedPath filesFoundOnDisk newUsageTracker
          else
            storeDashboardsInFolder env fr filesFoundOnDisk
              provisionedLibraryElementsRefs newUsageTracker
        match r.2.1 with
        | some e => (fr, some e, missingCalls ++ r.2.2)
        | none => ({ fr with usageTracker' := r.1 }, none, missingCalls ++ r.2.2)

/-- Raw provider entry of a version >= 1 YAML config file (`configs`);
`values.XxxValue` wrappers are read through `.Value()` only, so fields are
the unwrapped values. -/
structure configs where
  Name : String
  Type' : String
  OrgID : Int
  Folder : String
  FolderUID : String
  Editable : Bool
  DisableDeletion : Bool
  UpdateIntervalSeconds : Int
  AllowUIUpdates : Bool
  deriving Repr, DecidableEq

structure configV0 where
  Providers : List configs
  deriving Repr, DecidableEq

/-- The per-entry struct literal of `mapToPanelElementsAsConfig`. -/
def configs.toConfig (v : configs) : config :=
  { Name := v.Name, Type' := v.Type', OrgID := v.OrgID, Folder := v.Folder,
    FolderUID := v.FolderUID, Editable := v.Editable,
    DisableDeletion := v.DisableDeletion,
    UpdateIntervalSeconds := v.UpdateIntervalSeconds,
    AllowUIUpdates := v.AllowUIUpdates }

/-- The provider loop of `mapToPanelElementsAsConfig` with its `seen` set. -/
def mapToPanelElementsAsConfigLoop :
    List configs → List String → Except Err (List config)
  | [], _ => .ok []
  | v :: rest, seen =>
    if seen.contains v.Name then .error (Err.nameNotUnique v.Name)
    else
      match mapToPanelElementsAsConfigLoop rest (v.Name :: seen) with
      | .error e => .error e
      | .ok r => .ok (v.toConfig :: r)

/-- `configV0.mapToPanelElementsAsConfig`. -/
def configV0.mapToPanelElementsAsConfig (dc : configV0) : Except Err (List config) :=
  mapToPanelElementsAsConfigLoop dc.Providers []

instance : Inhabited FileInfo := ⟨⟨"", false, 0⟩⟩

instance : Inhabited Err := ⟨Err.folderNameMissing⟩

instance : Inhabited LibraryElementsProvisioning := ⟨⟨[], "", 0, "", 0⟩⟩

/-- Discriminator for per-file save calls (`SaveProvisionedLibraryElements`). -/
def isSaveCall : StorageCall → Bool
  | .save _ _ _ _ _ => true
  | _ => false

/-- A path is absent from the walked disk set. -/
def missingOnDisk (filesFoundOnDisk : List (List String × FileInfo))
    (path : List String) : Prop :=
  ∀ x ∈ filesFoundOnDisk, x.1 ≠ path

theorem missingOnDisk_iff_any (files : List (List String × FileInfo))
    (path : List String) :
    missingOnDisk files path ↔ (files.any (fun x => x.1 == path)) = false := by
  simp [missingOnDisk, List.any_eq_false]

/-- C2: membership characterisation of the deletion/unprovision pass. -/
theorem handleMissing_characterisation (fr : FileReader)
    (m : List LibraryElementsProvisioning)
    (files : List (List String × FileInfo)) (id org : Int) :
    (StorageCall.unprovision id ∈ handleMissingLibraryElementsFiles fr m files ↔
      fr.Cfg.DisableDeletion = true ∧
        ∃ pd ∈ m, pd.LibraryElementsId = id ∧ missingOnDisk files pd.ExternalId) ∧
    (StorageCall.delete id org ∈ handleMissingLibraryElementsFiles fr m files ↔
      fr.Cfg.DisableDeletion = false ∧ org = fr.Cfg.OrgID ∧
        ∃ pd ∈ m, pd.LibraryElementsId = id ∧ missingOnDisk files pd.ExternalId) := by
  unfold handleMissingLibraryElementsFiles
  constructor
  · cases h : fr.Cfg.DisableDeletion <;>
      simp [h, List.mem_map, List.mem_filter, missingOnDisk_iff_any, and_assoc] <;>
      aesop
  · cases h : fr.Cfg.DisableDeletion <;>
      simp [h, List.mem_map, List.mem_filter, missingOnDisk_iff_any, and_assoc] <;>
      aesop

/-- With restricted database access, `saveLibraryElements` issues no
storage call at all: every branch either returns early or takes the
log-only path. -/
theorem saveLibraryElements_restricted (env : Env) (fr : FileReader)
    (path : List String) (folderID : Int) (fileInfo : FileInfo)
    (m : List LibraryElementsProvisioning)
    (h : fr.dbWriteAccessRestricted = true) :
    (saveLibraryElements env fr path folderID fileInfo m).2.2 = [] := by
  unfold saveLibraryElements
  rcases hr : resolveSymlink env fileInfo path with e | rfi
  · rfl
  · rcases hj : readLibraryElementsFromFile env fr.Cfg path rfi.modTime folderID with e | jf
    · simp [hj]
    · simp only [hj, FileReader.isDatabaseAccessRestricted, h]
      split <;> simp

/-- The flat-mode save loop issues exactly the calls of the per-file saves. -/
theorem storeDashboardsInFolderLoop_restricted (env : Env) (fr : FileReader)
    (folderID : Int) (m : List LibraryElementsProvisioning)
    (files : List (List String × FileInfo)) (t : usageTracker)
    (h : fr.dbWriteAccessRestricted = true) :
    (storeDashboardsInFolderLoop env fr folderID m files t).2.2 = [] := by
  induction files generalizing t with
  | nil => rfl
  | cons x rest ih =>
    obtain ⟨path, fileInfo⟩ := x
    unfold storeDashboardsInFolderLoop
    rcases hs : (saveLibraryElements env fr path folderID fileInfo m).2.1 with _ | e <;>
      simp [hs, ih, saveLibraryElements_restricted env fr path folderID fileInfo m h]

/-- Folder resolution issues only folder-creation calls, never a per-file
save call. -/
theorem getOrCreateFolderID_calls (env : Env) (cfg : config) (folderName : String) :
    (getOrCreateFolderID env cfg folderName).2.2 = [] ∨
    (getOrCreateFolderID env cfg folderName).2.2 =
      [StorageCall.saveFolder folderName cfg.FolderUID cfg.OrgID] := by
  unfold getOrCreateFolderID
  split
  · left; rfl
  · split
    · split
      · split
        · right; rfl
        · right; rfl
      · left; rfl
    · split
      · left; rfl
      · left; rfl

theorem getOrCreateFolderID_no_save (env : Env) (cfg : config) (folderName : String) :
    ∀ c ∈ (getOrCreateFolderID env cfg folderName).2.2, isSaveCall c = false := by
  intro c hc
  rcases getOrCreateFolderID_calls env cfg folderName with h | h <;> rw [h] at hc
  · cases hc
  · simp only [List.mem_singleton] at hc
    subst hc
    rfl

/-- With restricted access, the mirrored-mode pass issues only
folder-creation calls. -/
theorem storeMirrored_restricted (env : Env) (fr : FileReader)
    (m : List LibraryElementsProvisioning) (resolvedPath : List String)
    (files : List (List String × FileInfo)) (t : usageTracker)
    (h : fr.dbWriteAccessRestricted = true) :
    ∀ c ∈ (storeLibraryElementsInFoldersFromFileStructure env fr m resolvedPath files t).2.2,
      isSaveCall c = false := by
  induction files generalizing t with
  | nil => intro c hc; cases hc
  | cons x rest ih =>
    obtain ⟨path, fileInfo⟩ := x
    unfold storeLibraryElementsInFoldersFromFileStructure
    have hfold := getOrCreateFolderID_no_save env fr.Cfg
      (mirroredFolderName resolvedPath path)
    have hsave := saveLibraryElements_restricted env fr path
      (getOrCreateFolderID env fr.Cfg (mirroredFolderName resolvedPath path)).1
      fileInfo m h
    rcases hf : (getOrCreateFolderID env fr.Cfg (mirroredFolderName resolvedPath path)).2.1
      with _ | e
    · simp only [hf]
      intro c hc
      simp only [hsave, List.mem_append, List.not_mem_nil, or_false] at hc
      rcases hc with hc | hc
      · exact hfold c hc
      · exact ih _ c hc
    · simp only [hf]
      split
      · intro c hc
        simp only [hsave, List.mem_append, List.not_mem_nil, or_false] at hc
        rcases hc with hc | hc
        · exact hfold c hc
        · exact ih _ c hc
      · intro c hc; exact hfold c hc

/-- The deletion/unprovision pass never issues a save call. -/
theorem handleMissing_no_save (fr : FileReader)
    (m : List LibraryElementsProvisioning)
    (files : List (List String × FileInfo)) :
    ∀ c ∈ handleMissingLibraryElementsFiles fr m files, isSaveCall c = false := by
  unfold handleMissingLibraryElementsFiles
  split <;> · intro c hc
              simp only [List.mem_map] at hc
              obtain ⟨i, _, rfl⟩ := hc
              rfl

/-- With restricted access, the flat-mode store issues only
folder-creation calls. -/
theorem storeDashboardsInFolder_restricted (env : Env) (fr : FileReader)
    (files : List (List String × FileInfo)) (m : List LibraryElementsProvisioning)
    (t : usageTracker) (h : fr.dbWriteAccessRestricted = true) :
    ∀ c ∈ (storeDashboardsInFolder env fr files m t).2.2, isSaveCall c = false := by
  have hloop := storeDashboardsInFolderLoop_restricted env fr
    (getOrCreateFolderID env fr.Cfg fr.Cfg.Folder).1 m files t h
  have hfold := getOrCreateFolderID_no_save env fr.Cfg fr.Cfg.Folder
  intro c hc
  unfold storeDashboardsInFolder at hc
  simp only [hloop, List.append_nil] at hc
  split at hc
  · split at hc
    · exact hfold c hc
    · exact hfold c hc
  · exact hfold c hc

/-- The file's symlink metadata resolves (resolveSymlink returns nil
error), the one per-file condition the flat loop needs to reach tracking
under restricted access. -/
def resolveOk (env : Env) (x : List String × FileInfo) : Bool :=
  match resolveSymlink env x.2 x.1 with
  | .ok _ => true
  | .error _ => false

/-- Under restricted access, a file whose metadata resolves always comes
back from `saveLibraryElements` with a nil error: load failures return nil
and the save call (the only other error source) is skipped. -/
theorem saveLibraryElements_restricted_err (env : Env) (fr : FileReader)
    (path : List String) (folderID : Int) (fi : FileInfo)
    (m : List LibraryElementsProvisioning)
    (h : fr.dbWriteAccessRestricted = true)
    (hres : resolveOk env (path, fi) = true) :
    (saveLibraryElements env fr path folderID fi m).2.1 = none := by
  unfold resolveOk at hres
  rcases hr : resolveSymlink env fi path with e | rfi
  · rw [hr] at hres; cases hres
  unfold saveLibraryElements
  rcases hj : readLibraryElementsFromFile env fr.Cfg path rfi.modTime folderID with e | jf
  · simp [hr, hj]
  · simp only [hr, hj, FileReader.isDatabaseAccessRestricted, h]
    split <;> simp

/-- C1 (amended): while the write-access-restricted flag is set, a scan
issues no `SaveProvisionedLibraryElements` call at all, but still records
identity usage for every file found on disk: the pass's usage tracker is
exactly the fold of `track` over every file's returned metadata — in flat
mode for every file whose metadata resolves (the only per-file error left
under restriction), in mirrored mode unconditionally as long as no hard
folder-resolution error aborts the pass. The diff is still computed;
delete/unprovision and folder-creation calls are not suppressed. -/
theorem walkDisk_restricted_no_save (env : Env) (fr : FileReader)
    (h : fr.dbWriteAccessRestricted = true) :
    (∀ c ∈ (walkDisk env fr).2.2, isSaveCall c = false) ∧
    (∀ (folderID : Int) (m : List LibraryElementsProvisioning)
        (files : List (List String × FileInfo)) (t : usageTracker),
      (∀ x ∈ files, resolveOk env x = true) →
      (storeDashboardsInFolderLoop env fr folderID m files t).1 =
        files.foldl (fun t2 x =>
          t2.track (saveLibraryElements env fr x.1 folderID x.2 m).1) t) ∧
    (∀ (m : List LibraryElementsProvisioning) (root : List String)
        (files : List (List String × FileInfo)) (t : usageTracker),
      (∀ x ∈ files,
        (getOrCreateFolderID env fr.Cfg (mirroredFolderName root x.1)).2.1 = none ∨
        (getOrCreateFolderID env fr.Cfg (mirroredFolderName root x.1)).2.1 =
          some Err.folderNameMissing) →
      (storeLibraryElementsInFoldersFromFileStructure env fr m root files t).1 =
        files.foldl (fun t2 x =>
          t2.track (saveLibraryElements env fr x.1
            (getOrCreateFolderID env fr.Cfg (mirroredFolderName root x.1)).1
            x.2 m).1) t) := by
  refine ⟨?_, ?_, ?_⟩
  · intro c hc
    unfold walkDisk at hc
    rcases hs : env.statRootErr (env.resolveRoot fr.Path) with _ | e <;>
      simp only [hs] at hc
    swap
    · cases hc
    rcases hg : getProvisionedLibraryElementssByPath env fr.Cfg.Name with e | refs <;>
      simp only [hg] at hc
    · cases hc
    rcases hw : env.walkErr with _ | e <;> simp only [hw] at hc
    swap
    · cases hc
    split at hc <;>
    · simp only [List.mem_append] at hc
      rcases hc with hc | hc
      · exact handleMissing_no_save fr refs _ c hc
      · by_cases hm : fr.FoldersFromFilesStructure = true
        · simp only [hm, if_true] at hc
          exact storeMirrored_restricted env fr refs _ _ _ h c hc
        · simp only [hm, if_false] at hc
          exact storeDashboardsInFolder_restricted env fr _ refs _ h c hc
  · intro folderID m files
    induction files with
    | nil => intro t _; rfl
    | cons x rest ih =>
      obtain ⟨path, fi⟩ := x
      intro t hres
      have herr : (saveLibraryElements env fr path folderID fi m).2.1 = none :=
        saveLibraryElements_restricted_err env fr path folderID fi m h
          (hres (path, fi) (by simp))
      conv_lhs => rw [storeDashboardsInFolderLoop]
      simp only [herr]
      rw [List.foldl_cons]
      exact ih (t.track (saveLibraryElements env fr path folderID fi m).1)
        (fun y hy => hres y (List.mem_cons_of_mem _ hy))
  · intro m root files
    induction files with
    | nil => intro t _; rfl
    | cons x rest ih =>
      obtain ⟨path, fi⟩ := x
      intro t hfold
      have hx := hfold (path, fi) (by simp)
      conv_lhs => rw [storeLibraryElementsInFoldersFromFileStructure]
      rcases hf : (getOrCreateFolderID env fr.Cfg (mirroredFolderName root path)).2.1
        with _ | e
      · simp only [hf]
        rw [List.foldl_cons]
        exact ih _ (fun y hy => hfold y (List.mem_cons_of_mem _ hy))
      · rcases hx with hx | hx
        · rw [hf] at hx; cases hx
        · rw [hf] at hx
          rw [Option.some_inj] at hx
          simp only [hf, hx, if_pos rfl]
          rw [List.foldl_cons]
          exact ih _ (fun y hy => hfold y (List.mem_cons_of_mem _ hy))

/-! Concrete scan fixtures used to instantiate the theorems. -/

def cfgFlat : config :=
  { Name := "A", Type' := "file", OrgID := 1, Folder := "", FolderUID := "",
    Editable := true, DisableDeletion := false, UpdateIntervalSeconds := 10,
    AllowUIUpdates := false }

def refX : LibraryElementsProvisioning :=
  { ExternalId := ["root", "x.json"], Name := "A", Updated := 0, CheckSum := "c",
    LibraryElementsId := 7 }

/-- A benign environment: no symlinks, readable files, empty provisioning
table, an empty root directory. -/
def envScanBase : Env :=
  { evalSymlinks := fun p => (p, none),
    lstat := fun _ => .error (Err.ioError "lstat"),
    readFile := fun _ => .ok "body",
    checksum := fun s => s,
    parse := fun _ => .ok { uid := "u", title := "T", id := 0 },
    getProvisionedData := fun _ => .ok [],
    slugify := fun s => s,
    folderQuery := fun _ _ => .error Err.libraryElementsNotFound,
    saveFolderForProvisioned := fun _ _ _ => .ok 3,
    saveProvisioned := fun _ _ => none,
    statRootErr := fun _ => none,
    resolveRoot := fun _ => ["root"],
    rootTree := .dir "root" [],
    walkErr := none }

/-- One provisioned record at `root/x.json`, nothing on disk. -/
def envMissingRef : Env :=
  { envScanBase with getProvisionedData := fun _ => .ok [refX] }

def frRestricted : FileReader :=
  { Cfg := cfgFlat, Path := ["root"], FoldersFromFilesStructure := false,
    usageTracker' := newUsageTracker, dbWriteAccessRestricted := true }

/-- C1 (counterexample): a scan run with the write-access-restricted flag
set still issues a mutating storage call — the deletion pass is not
guarded by the flag, so a provisioned record missing from disk is deleted. -/
theorem walkDisk_restricted_still_deletes :
    frRestricted.dbWriteAccessRestricted = true ∧
    (walkDisk envMissingRef frRestricted).2.2 = [StorageCall.delete 7 1] := by
  constructor
  · rfl
  · simp [walkDisk, envMissingRef, envScanBase, frRestricted, cfgFlat, refX,
      walkFrom, walkList, entryName, getProvisionedLibraryElementssByPath, byPath,
      handleMissingLibraryElementsFiles, storeDashboardsInFolder,
      storeDashboardsInFolderLoop, getOrCreateFolderID]

/-- Witness for the C2 theorem: a missing provisioned path is deleted when
deletion is enabled. -/
theorem handleMissing_characterisation_witness :
    StorageCall.delete 7 1 ∈ handleMissingLibraryElementsFiles frRestricted [refX] [] :=
  ((handleMissing_characterisation frRestricted [refX] [] 7 1).2).mpr
    ⟨rfl, rfl, refX, by simp, rfl, by simp [missingOnDisk]⟩

/-- `root/a.json` on disk, one stale ref at `root/x.json`. -/
def envRestrictedFile : Env :=
  { envMissingRef with rootTree := .dir "root" [.file "a.json" 5] }

/-- Witness for the amended C1 theorem at a concrete restricted scan with a
file on disk: no save call is issued, yet the file's identity (uid "u") is
recorded into the tracker. -/
theorem walkDisk_restricted_no_save_witness :
    frRestricted.dbWriteAccessRestricted = true ∧
    (∀ c ∈ (walkDisk envRestrictedFile frRestricted).2.2, isSaveCall c = false) ∧
    (storeDashboardsInFolderLoop envRestrictedFile frRestricted 0 []
      [(["root", "a.json"], ⟨"a.json", false, 5⟩)] newUsageTracker).1.uidUsage "u"
      = 1 := by
  have h := walkDisk_restricted_no_save envRestrictedFile frRestricted rfl
  refine ⟨rfl, h.1, ?_⟩
  rw [h.2.1 0 [] [(["root", "a.json"], ⟨"a.json", false, 5⟩)] newUsageTracker
    (by decide)]
  decide

/-- C3: a file is classified up to date iff a provisioned record exists for
its path and that record's stored checksum equals the freshly computed one;
a never-provisioned file is never up to date; an up-to-date file issues no
save call but its identity is still handed to the caller and recorded into
the scan's usage tracker. -/
theorem saveLibraryElements_upToDate (env : Env) (fr : FileReader)
    (path : List String) (folderID : Int) (fileInfo : FileInfo)
    (m : List LibraryElementsProvisioning) (rfi : FileInfo)
    (jf : LibraryElementsJSONFile)
    (hres : resolveSymlink env fileInfo path = Except.ok rfi)
    (hread : readLibraryElementsFromFile env fr.Cfg path rfi.modTime folderID
      = Except.ok jf) :
    (isUpToDate m path jf.checkSum = true ↔
      ∃ pd, byPathLookup m path = some pd ∧ pd.CheckSum = jf.checkSum) ∧
    (byPathLookup m path = none → isUpToDate m path jf.checkSum = false) ∧
    (isUpToDate m path jf.checkSum = true →
      saveLibraryElements env fr path folderID fileInfo m =
        ({ uid := jf.LibraryElements.libraryElement.uid,
           identity := { title := jf.LibraryElements.libraryElement.title,
                         folderID := jf.LibraryElements.libraryElement.folderId } },
         none, []) ∧
      ∀ (rest : List (List String × FileInfo)) (t : usageTracker),
        storeDashboardsInFolderLoop env fr folderID m ((path, fileInfo) :: rest) t =
          storeDashboardsInFolderLoop env fr folderID m rest
            (t.track { uid := jf.LibraryElements.libraryElement.uid,
                       identity := { title := jf.LibraryElements.libraryElement.title,
                                     folderID := jf.LibraryElements.libraryElement.folderId } })) := by
  refine ⟨?_, ?_, ?_⟩
  · unfold isUpToDate
    cases hl : byPathLookup m path with
    | none => simp
    | some pd =>
      simp only [beq_iff_eq]
      constructor
      · intro h
        exact ⟨pd, rfl, h.symm⟩
      · rintro ⟨pd', hpd, hcs⟩
        rw [Option.some_inj] at hpd
        subst hpd
        exact hcs.symm
  · intro hl
    unfold isUpToDate
    rw [hl]
  · intro hup
    have hsv : saveLibraryElements env fr path folderID fileInfo m =
        ({ uid := jf.LibraryElements.libraryElement.uid,
           identity := { title := jf.LibraryElements.libraryElement.title,
                         folderID := jf.LibraryElements.libraryElement.folderId } },
         none, []) := by
      unfold saveLibraryElements
      simp only [hres, hread, hup, if_true]
    refine ⟨hsv, fun rest t => ?_⟩
    conv_lhs => rw [storeDashboardsInFolderLoop]
    simp only [hsv, List.nil_append]

def frFlat : FileReader :=
  { Cfg := cfgFlat, Path := ["root"], FoldersFromFilesStructure := false,
    usageTracker' := newUsageTracker, dbWriteAccessRestricted := false }

def fiA : FileInfo := ⟨"a.json", false, 5⟩

/-- Ref whose stored checksum matches `envScanBase`'s identity-md5 of the
fixed file body. -/
def refBody : LibraryElementsProvisioning :=
  { ExternalId := ["root", "a.json"], Name := "A", Updated := 0,
    CheckSum := "body", LibraryElementsId := 7 }

def jfA : LibraryElementsJSONFile :=
  { LibraryElements :=
      { libraryElement := { uid := "u", title := "T", id := 0, folderId := 0, orgID := 1 },
        updatedAt := 5, overwrite := true, orgId := 1 },
    checkSum := "body", lastModified := 5 }

/-- Witness for the C3 theorem at a concrete up-to-date file. -/
theorem saveLibraryElements_upToDate_witness :
    isUpToDate [refBody] ["root", "a.json"] jfA.checkSum = true ∧
    saveLibraryElements envScanBase frFlat ["root", "a.json"] 0 fiA [refBody] =
      ({ uid := "u", identity := { title := "T", folderID := 0 } }, none, []) := by
  have h := saveLibraryElements_upToDate envScanBase frFlat ["root", "a.json"] 0
    fiA [refBody] fiA jfA rfl rfl
  exact ⟨by decide, ((h.2.2 (by decide)).1)⟩

/-- Induction principle for the nested inductive `FsEntry`. -/
theorem FsEntry.inductionOn {motive : FsEntry → Prop}
    (hfile : ∀ n mt, motive (.file n mt))
    (hdir : ∀ n cs, (∀ c ∈ cs, motive c) → motive (.dir n cs)) :
    ∀ e, motive e := fun e =>
  @FsEntry.rec motive (fun cs => ∀ c ∈ cs, motive c)
    hfile hdir
    (fun c hc => absurd hc (List.not_mem_nil c))
    (fun c cs ihc ihcs => by
      intro x hx
      cases hx with
      | head => exact ihc
      | tail _ h => exact ihcs x h)
    e

/-- Membership characterisation of `walkList` given one for the members. -/
theorem walkList_mem_char (cs : List FsEntry)
    (H : ∀ c ∈ cs, ∀ rootPath p fi, (p, fi) ∈ walkFrom rootPath c ↔
      ∃ rel, p = rootPath ++ rel ∧ WalksTo c rel fi) :
    ∀ parent p fi, (p, fi) ∈ walkList parent cs ↔
      ∃ c ∈ cs, ∃ rel, p = parent ++ (entryName c :: rel) ∧ WalksTo c rel fi := by
  induction cs with
  | nil => intro parent p fi; simp [walkList]
  | cons c cs ih =>
    intro parent p fi
    have hc := H c (List.mem_cons_self c cs) (parent ++ [entryName c]) p fi
    have hrest := ih (fun d hd => H d (List.mem_cons_of_mem c hd)) parent p fi
    simp only [walkList, List.mem_append]
    constructor
    · rintro (h | h)
      · obtain ⟨rel, rfl, hw⟩ := hc.mp h
        exact ⟨c, List.mem_cons_self c cs, rel, by simp, hw⟩
      · obtain ⟨d, hd, rel, rfl, hw⟩ := hrest.mp h
        exact ⟨d, List.mem_cons_of_mem c hd, rel, rfl, hw⟩
    · rintro ⟨d, hd, rel, rfl, hw⟩
      rcases List.mem_cons.mp hd with rfl | hd
      · exact Or.inl (hc.mpr ⟨rel, by simp, hw⟩)
      · exact Or.inr (hrest.mpr ⟨d, hd, rel, rfl, hw⟩)

/-- The walk's result contains `(p, fi)` exactly when `p` reaches, through
non-hidden directories only, a regular ".json" file described by `fi`. -/
theorem walkFrom_mem (e : FsEntry) :
    ∀ rootPath p fi, (p, fi) ∈ walkFrom rootPath e ↔
      ∃ rel, p = rootPath ++ rel ∧ WalksTo e rel fi := by
  induction e using FsEntry.inductionOn with
  | hfile n mt =>
    intro rootPath p fi
    simp only [walkFrom]
    by_cases h : strHasSuffix n ".json" = true
    · simp only [h, if_true, List.mem_singleton, Prod.mk.injEq]
      constructor
      · rintro ⟨rfl, rfl⟩
        exact ⟨[], by simp, WalksTo.file n mt h⟩
      · rintro ⟨rel, rfl, hw⟩
        cases hw
        simp
    · simp only [h, Bool.false_eq_true, if_false, List.not_mem_nil, false_iff]
      rintro ⟨rel, rfl, hw⟩
      cases hw
      simp_all
  | hdir n cs ihcs =>
    intro rootPath p fi
    have hlist := walkList_mem_char cs ihcs rootPath p fi
    simp only [walkFrom]
    by_cases h : strHasPrefix n "." = true
    · simp only [h, if_true, List.not_mem_nil, false_iff]
      rintro ⟨rel, rfl, hw⟩
      cases hw with
      | dir _ _ _ _ _ hn _ _ => rw [h] at hn; cases hn
    · simp only [h, Bool.false_eq_true, if_false]
      rw [hlist]
      constructor
      · rintro ⟨c, hc, rel, rfl, hw⟩
        exact ⟨entryName c :: rel, rfl,
          WalksTo.dir n cs c rel fi (Bool.not_eq_true _ ▸ eq_false_of_ne_true h) hc hw⟩
      · rintro ⟨rel, rfl, hw⟩
        cases hw with
        | dir _ _ c rel' fi hn hc hw' => exact ⟨c, hc, rel', rfl, hw'⟩

/-- Any file the reference relation reaches is a regular ".json" file. -/
theorem WalksTo_file_shape {e : FsEntry} {rel : List String} {fi : FileInfo}
    (hw : WalksTo e rel fi) :
    fi.isDir = false ∧ strHasSuffix fi.name ".json" = true := by
  induction hw with
  | file n mt h => exact ⟨rfl, h⟩
  | dir _ _ _ _ _ _ _ _ ih => exact ih

/-- C7: the walk's result mapping holds exactly the regular ".json" files
reachable without crossing a hidden directory; a hidden directory's whole
subtree contributes nothing; directories themselves and non-".json" files
are excluded. -/
theorem walk_result_characterisation (e : FsEntry) (rootPath p : List String)
    (fi : FileInfo) :
    ((p, fi) ∈ walkFrom rootPath e ↔
      ∃ rel, p = rootPath ++ rel ∧ WalksTo e rel fi) ∧
    ((p, fi) ∈ walkFrom rootPath e →
      fi.isDir = false ∧ strHasSuffix fi.name ".json" = true) ∧
    (∀ name children, strHasPrefix name "." = true →
      walkFrom rootPath (.dir name children) = []) := by
  refine ⟨walkFrom_mem e rootPath p fi, fun h => ?_, fun name children h => ?_⟩
  · obtain ⟨rel, _, hw⟩ := (walkFrom_mem e rootPath p fi).mp h
    exact WalksTo_file_shape hw
  · simp [walkFrom, h]

/-- Witness for the C7 theorem: a hidden directory's ".json" file is pruned
while a sibling at the same depth is found. -/
theorem walk_result_characterisation_witness :
    (["root", "sub", "a.json"], fiA) ∈
      walkFrom ["root"]
        (.dir "root" [.dir "sub" [.file "a.json" 5], .dir ".hid" [.file "b.json" 1]]) ∧
    walkFrom ["root"]
        (.dir "root" [.dir "sub" [.file "a.json" 5], .dir ".hid" [.file "b.json" 1]]) =
      [(["root", "sub", "a.json"], fiA)] := by
  constructor
  · exact (walk_result_characterisation
      (.dir "root" [.dir "sub" [.file "a.json" 5], .dir ".hid" [.file "b.json" 1]])
      ["root"] ["root", "sub", "a.json"] fiA).1.mpr
      ⟨["sub", "a.json"], rfl,
        WalksTo.dir "root" _ (.dir "sub" [.file "a.json" 5]) ["a.json"] fiA
          (by decide) (by simp)
          (WalksTo.dir "sub" _ (.file "a.json" 5) [] fiA (by decide) (by simp)
            (WalksTo.file "a.json" 5 (by decide)))⟩
  · simp [walkFrom, walkList, entryName, fiA]
    decide

/-- C6: mirrored mode derives a root-level file's folder name as "" (and
resolution of "" yields folder id 0 via `ErrFolderNameMissing`, which the
loop tolerates, saving with folder id 0), while a file in a subdirectory
gets the base name of its immediate parent directory; the root directory's
own name is never consulted. -/
theorem mirrored_folder_placement (env : Env) (fr : FileReader)
    (m : List LibraryElementsProvisioning) (root : List String) (f : String)
    (fi : FileInfo) (t : usageTracker) (sub : List String) :
    (mirroredFolderName root (root ++ [f]) = "" ∧
     getOrCreateFolderID env fr.Cfg "" = (0, some Err.folderNameMissing, []) ∧
     storeLibraryElementsInFoldersFromFileStructure env fr m root
        [(root ++ [f], fi)] t =
       (t.track (saveLibraryElements env fr (root ++ [f]) 0 fi m).1, none,
        (saveLibraryElements env fr (root ++ [f]) 0 fi m).2.2)) ∧
    (sub ≠ [] → mirroredFolderName root (root ++ sub ++ [f]) = sub.getLastD "") := by
  have hroot : mirroredFolderName root (root ++ [f]) = "" := by
    simp [mirroredFolderName]
  refine ⟨⟨hroot, rfl, ?_⟩, fun hsub => ?_⟩
  · conv_lhs => rw [storeLibraryElementsInFoldersFromFileStructure]
    rw [hroot]
    simp only [getOrCreateFolderID, if_pos rfl]
    conv_lhs => rw [storeLibraryElementsInFoldersFromFileStructure]
    simp
  · have hne : root ++ sub ≠ root := by
      intro h
      have := congrArg List.length h
      simp at this
      exact hsub this
    simp [mirroredFolderName, List.append_assoc, hne,
      List.getLastD_eq_getLast?, List.getLast?_append_of_ne_nil _ hsub]

/-- Witness for the C6 theorem: `root/sub/a.json` maps to folder "sub";
`root/a.json` maps to "" and is saved with folder id 0. -/
theorem mirrored_folder_placement_witness :
    mirroredFolderName ["root"] (["root"] ++ ["a.json"]) = "" ∧
    mirroredFolderName ["root"] (["root"] ++ ["sub"] ++ ["a.json"]) = "sub" := by
  have h := mirrored_folder_placement envScanBase frFlat [] ["root"] "a.json"
    fiA newUsageTracker ["sub"]
  exact ⟨h.1.1, h.2 (by decide)⟩

/-- If the remaining provider names are distinct and none was seen yet,
the mapping loop succeeds, producing one config per provider. -/
theorem mapLoop_ok (l : List configs) : ∀ seen : List String,
    (l.map configs.Name).Nodup →
    (∀ n ∈ l.map configs.Name, n ∉ seen) →
    mapToPanelElementsAsConfigLoop l seen = .ok (l.map configs.toConfig) := by
  induction l with
  | nil => intro seen _ _; rfl
  | cons v rest ih =>
    intro seen hnd hdisj
    have hv : v.Name ∉ seen := hdisj v.Name (by simp)
    have hcv : seen.contains v.Name = false := by simpa using hv
    have hndr := (List.nodup_cons.mp hnd).2
    have hdisj2 : ∀ n ∈ rest.map configs.Name, n ∉ (v.Name :: seen) := by
      intro n hn
      have hne : n ≠ v.Name := fun h => (List.nodup_cons.mp hnd).1 (h ▸ hn)
      simp [hne, hdisj n (by simp [hn])]
    simp only [mapToPanelElementsAsConfigLoop, hcv, Bool.false_eq_true, if_false,
      ih (v.Name :: seen) hndr hdisj2, List.map_cons]

/-- If the remaining provider names collide with each other or with the
seen set, the mapping loop fails naming a colliding provider name. -/
theorem mapLoop_dup (l : List configs) : ∀ seen : List String,
    (¬(l.map configs.Name).Nodup ∨ ∃ n ∈ l.map configs.Name, n ∈ seen) →
    ∃ n, mapToPanelElementsAsConfigLoop l seen = .error (Err.nameNotUnique n) ∧
      (2 ≤ (l.map configs.Name).count n ∨
        (n ∈ seen ∧ n ∈ l.map configs.Name)) := by
  induction l with
  | nil =>
    intro seen h
    rcases h with h | ⟨n, hn, _⟩
    · exact absurd List.nodup_nil h
    · cases hn
  | cons v rest ih =>
    intro seen h
    by_cases hv : v.Name ∈ seen
    · refine ⟨v.Name, ?_, Or.inr ⟨hv, by simp⟩⟩
      have hcv : seen.contains v.Name = true := by simpa using hv
      unfold mapToPanelElementsAsConfigLoop
      rw [hcv]
      simp
    · have hcv : seen.contains v.Name = false := by simpa using hv
      have hrec : ∃ n, mapToPanelElementsAsConfigLoop rest (v.Name :: seen) =
          .error (Err.nameNotUnique n) ∧
          (2 ≤ (rest.map configs.Name).count n ∨
            (n ∈ (v.Name :: seen) ∧ n ∈ rest.map configs.Name)) := by
        apply ih
        rcases h with h | ⟨n, hn, hns⟩
        · by_cases hmem : v.Name ∈ rest.map configs.Name
          · exact Or.inr ⟨v.Name, hmem, by simp⟩
          · exact Or.inl (fun hnd => h (by simp [List.nodup_cons, hmem, hnd]))
        · rcases List.mem_cons.mp hn with rfl | hn2
          · exact absurd hns hv
          · exact Or.inr ⟨n, hn2, by simp [hns]⟩
      obtain ⟨n, hloop, hwhy⟩ := hrec
      refine ⟨n, ?_, ?_⟩
      · unfold mapToPanelElementsAsConfigLoop
        rw [hcv]
        simp only [Bool.false_eq_true, if_false, hloop]
      · rcases hwhy with hcnt | ⟨hcont, hmem⟩
        · left
          simp only [List.map_cons, List.count_cons]
          split <;> omega
        · by_cases hveq : n = v.Name
          · subst hveq
            left
            have h1 : 0 < (rest.map configs.Name).count v.Name :=
              List.count_pos_iff.mpr hmem
            simp only [List.map_cons, List.count_cons, beq_self_eq_true, if_true]
            omega
          · right
            exact ⟨(List.mem_cons.mp hcont).resolve_left hveq, by simp [hmem]⟩

/-- C9: duplicate provider names in one file make config mapping fail with
an error identifying a duplicated name; distinct names produce exactly one
config per provider entry. -/
theorem mapToPanelElementsAsConfig_name_uniqueness (dc : configV0) :
    ((dc.Providers.map configs.Name).Nodup →
      dc.mapToPanelElementsAsConfig = .ok (dc.Providers.map configs.toConfig) ∧
      (dc.Providers.map configs.toConfig).length = dc.Providers.length) ∧
    (¬(dc.Providers.map configs.Name).Nodup →
      ∃ n, dc.mapToPanelElementsAsConfig = .error (Err.nameNotUnique n) ∧
        2 ≤ (dc.Providers.map configs.Name).count n) := by
  constructor
  · intro hnd
    refine ⟨mapLoop_ok dc.Providers [] hnd (fun n _ => List.not_mem_nil n), by simp⟩
  · intro hnd
    obtain ⟨n, hloop, hwhy⟩ := mapLoop_dup dc.Providers [] (Or.inl hnd)
    refine ⟨n, hloop, ?_⟩
    rcases hwhy with h | ⟨h, _⟩
    · exact h
    · cases h

def providerA : configs :=
  { Name := "A", Type' := "file", OrgID := 1, Folder := "", FolderUID := "",
    Editable := true, DisableDeletion := false, UpdateIntervalSeconds := 10,
    AllowUIUpdates := false }

def providerB : configs :=
  { providerA with Name := "B" }

/-- Witness for the C9 theorem: distinct names map to one config each;
a repeated name fails naming it. -/
theorem mapToPanelElementsAsConfig_name_uniqueness_witness :
    (configV0.mapToPanelElementsAsConfig ⟨[providerA, providerB]⟩ =
      .ok [providerA.toConfig, providerB.toConfig]) ∧
    ∃ n, configV0.mapToPanelElementsAsConfig ⟨[providerA, providerB, providerA]⟩ =
      .error (Err.nameNotUnique n) ∧
      2 ≤ ([providerA, providerB, providerA].map configs.Name).count n := by
  constructor
  · exact ((mapToPanelElementsAsConfig_name_uniqueness
      ⟨[providerA, providerB]⟩).1 (by decide)).1
  · exact (mapToPanelElementsAsConfig_name_uniqueness
      ⟨[providerA, providerB, providerA]⟩).2 (by decide)

/-- C10: the two placement passes treat a failed per-file save
asymmetrically: the flat-mode loop skips the file before tracking, so its
identity never reaches the usage tracker; the mirrored-mode pass tracks the
returned metadata before inspecting the save error. -/
theorem store_modes_track_asymmetry (env : Env) (fr : FileReader)
    (m : List LibraryElementsProvisioning) (root path : List String)
    (fileInfo : FileInfo) (rest : List (List String × FileInfo))
    (t : usageTracker) (folderID : Int) (pm : provisioningMetadata) (e : Err)
    (cs : List StorageCall)
    (hsave : saveLibraryElements env fr path folderID fileInfo m = (pm, some e, cs)) :
    (storeDashboardsInFolderLoop env fr folderID m ((path, fileInfo) :: rest) t =
      ((storeDashboardsInFolderLoop env fr folderID m rest t).1,
       (storeDashboardsInFolderLoop env fr folderID m rest t).2.1,
       cs ++ (storeDashboardsInFolderLoop env fr folderID m rest t).2.2)) ∧
    (∀ ferr fcalls,
      getOrCreateFolderID env fr.Cfg (mirroredFolderName root path) =
        (folderID, ferr, fcalls) →
      (ferr = none ∨ ferr = some Err.folderNameMissing) →
      storeLibraryElementsInFoldersFromFileStructure env fr m root
          ((path, fileInfo) :: rest) t =
        ((storeLibraryElementsInFoldersFromFileStructure env fr m root rest
            (t.track pm)).1,
         (storeLibraryElementsInFoldersFromFileStructure env fr m root rest
            (t.track pm)).2.1,
         fcalls ++ cs ++ (storeLibraryElementsInFoldersFromFileStructure env fr m root
            rest (t.track pm)).2.2)) := by
  constructor
  · conv_lhs => rw [storeDashboardsInFolderLoop]
    simp only [hsave]
  · intro ferr fcalls hf hferr
    conv_lhs => rw [storeLibraryElementsInFoldersFromFileStructure]
    rw [hf]
    rcases hferr with rfl | rfl
    · simp only [hsave]
    · simp [hsave]

/-- Environment in which every per-file save fails. -/
def envSaveErr : Env :=
  { envScanBase with saveProvisioned := fun _ _ => some (Err.storageError "boom") }

/-- Witness for the C10 theorem: with a failing save for `root/a.json`
(loaded uid "u"), the flat pass leaves the tracker empty while the
mirrored pass counts the uid. -/
theorem store_modes_track_asymmetry_witness :
    (storeDashboardsInFolderLoop envSaveErr frFlat 0 []
      [(["root", "a.json"], fiA)] newUsageTracker).1.uidUsage "u" = 0 ∧
    (storeLibraryElementsInFoldersFromFileStructure envSaveErr frFlat [] ["root"]
      [(["root", "a.json"], fiA)] newUsageTracker).1.uidUsage "u" = 1 := by
  have h := store_modes_track_asymmetry envSaveErr frFlat [] ["root"]
    ["root", "a.json"] fiA [] newUsageTracker 0
    { uid := "u", identity := { title := "T", folderID := 0 } }
    (Err.storageError "boom")
    [StorageCall.save ["root", "a.json"] "A" 5 "body" 0] rfl
  constructor
  · rw [h.1]
    rfl
  · rw [h.2 (some Err.folderNameMissing) [] rfl (Or.inr rfl)]
    rfl

/-- C4 (amended): per-file load/save failures are per-item in both passes
(they never abort the loop), but a folder-resolution failure other than the
tolerated empty-name condition aborts the whole placement pass — in
mirrored mode at the failing file, skipping all remaining items. -/
theorem per_item_vs_folder_errors (env : Env) (fr : FileReader)
    (m : List LibraryElementsProvisioning) (root : List String)
    (folderID : Int) (files : List (List String × FileInfo)) (t : usageTracker) :
    ((storeDashboardsInFolderLoop env fr folderID m files t).2.1 = none) ∧
    ((∀ x ∈ files,
        (getOrCreateFolderID env fr.Cfg (mirroredFolderName root x.1)).2.1 = none ∨
        (getOrCreateFolderID env fr.Cfg (mirroredFolderName root x.1)).2.1 =
          some Err.folderNameMissing) →
      (storeLibraryElementsInFoldersFromFileStructure env fr m root files t).2.1 =
        none) ∧
    (∀ path fileInfo rest e,
      (getOrCreateFolderID env fr.Cfg (mirroredFolderName root path)).2.1 = some e →
      e ≠ Err.folderNameMissing →
      storeLibraryElementsInFoldersFromFileStructure env fr m root
          ((path, fileInfo) :: rest) t =
        (t, some (Err.cantProvisionFolder (mirroredFolderName root path) e),
         (getOrCreateFolderID env fr.Cfg (mirroredFolderName root path)).2.2)) := by
  refine ⟨?_, ?_, ?_⟩
  · induction files generalizing t with
    | nil => rfl
    | cons x rest ih =>
      obtain ⟨path, fileInfo⟩ := x
      conv_lhs => rw [storeDashboardsInFolderLoop]
      rcases hs : (saveLibraryElements env fr path folderID fileInfo m).2.1 with _ | e <;>
        simp [hs, ih]
  · induction files generalizing t with
    | nil => intro _; rfl
    | cons x rest ih =>
      obtain ⟨path, fileInfo⟩ := x
      intro hfold
      have hx := hfold (path, fileInfo) (by simp)
      conv_lhs => rw [storeLibraryElementsInFoldersFromFileStructure]
      rcases hf : (getOrCreateFolderID env fr.Cfg (mirroredFolderName root path)).2.1
        with _ | e
      · simp only [hf]
        exact ih _ (fun y hy => hfold y (List.mem_cons_of_mem _ hy))
      · rcases hx with hx | hx
        · rw [hf] at hx; cases hx
        · rw [hf] at hx
          rw [Option.some_inj] at hx
          simp only [hf, hx, if_pos rfl]
          exact ih _ (fun y hy => hfold y (List.mem_cons_of_mem _ hy))
  · intro path fileInfo rest e hf hne
    conv_lhs => rw [storeLibraryElementsInFoldersFromFileStructure]
    simp [hf, hne]

/-- Mirrored reader over a tree `root/{sub/a.json, b.json}` whose folder
query fails hard. -/
def frMirrored : FileReader :=
  { frFlat with FoldersFromFilesStructure := true }

def envFolderErr : Env :=
  { envScanBase with
      rootTree := .dir "root" [.dir "sub" [.file "a.json" 5], .file "b.json" 6],
      folderQuery := fun _ _ => .error (Err.storageError "db") }

/-- C4 (counterexample): a single folder-resolution failure (for `sub`)
aborts the entire scan with an error and prevents every save — including
`root/b.json`, which the same scan saves when folder resolution works. So
folder-resolution failures are not per-item. -/
theorem folder_error_aborts_scan :
    (walkDisk envFolderErr frMirrored).2.1 =
      some (Err.cantProvisionFolder "sub" (Err.storageError "db")) ∧
    (walkDisk envFolderErr frMirrored).2.2 = [] ∧
    (walkDisk { envFolderErr with folderQuery := fun _ _ => .ok ⟨9, true⟩ }
      frMirrored).2.2 ≠ [] := by
  refine ⟨?_, ?_, ?_⟩
  · simp [walkDisk, envFolderErr, envScanBase, frMirrored, frFlat, cfgFlat,
      walkFrom, walkList, entryName, getProvisionedLibraryElementssByPath, byPath,
      handleMissingLibraryElementsFiles,
      storeLibraryElementsInFoldersFromFileStructure, getOrCreateFolderID,
      mirroredFolderName]
  · simp [walkDisk, envFolderErr, envScanBase, frMirrored, frFlat, cfgFlat,
      walkFrom, walkList, entryName, getProvisionedLibraryElementssByPath, byPath,
      handleMissingLibraryElementsFiles,
      storeLibraryElementsInFoldersFromFileStructure, getOrCreateFolderID,
      mirroredFolderName]
  · simp [walkDisk, envFolderErr, envScanBase, frMirrored, frFlat, cfgFlat,
      walkFrom, walkList, entryName, getProvisionedLibraryElementssByPath, byPath,
      handleMissingLibraryElementsFiles,
      storeLibraryElementsInFoldersFromFileStructure, getOrCreateFolderID,
      mirroredFolderName, saveLibraryElements, resolveSymlink,
      readLibraryElementsFromFile, createLibraryElementsJSON, isUpToDate,
      byPathLookup, FileReader.isDatabaseAccessRestricted]

/-- Witness for the amended C4 theorem: a failing save is per-item (flat
loop still reports no error) while a hard folder failure aborts the
mirrored pass at the failing file. -/
theorem per_item_vs_folder_errors_witness :
    (storeDashboardsInFolderLoop envSaveErr frFlat 0 []
      [(["root", "a.json"], fiA)] newUsageTracker).2.1 = none ∧
    storeLibraryElementsInFoldersFromFileStructure envFolderErr frMirrored []
        ["root"] [(["root", "sub", "a.json"], fiA)] newUsageTracker =
      (newUsageTracker,
       some (Err.cantProvisionFolder "sub" (Err.storageError "db")), []) := by
  constructor
  · exact (per_item_vs_folder_errors envSaveErr frFlat [] ["root"] 0
      [(["root", "a.json"], fiA)] newUsageTracker).1
  · exact (per_item_vs_folder_errors envFolderErr frMirrored [] ["root"] 0
      [] newUsageTracker).2.2 ["root", "sub", "a.json"] fiA []
      (Err.storageError "db") rfl (by decide)

/-- C8 (amended): `resolveSymlink` hands back the original metadata only in
the no-redirect case; a resolution failure is returned as an error, and
`saveLibraryElements` then returns that error immediately — the file is
skipped for this scan, not processed with its original metadata. -/
theorem resolveSymlink_failure_skips_file (env : Env) (fileinfo : FileInfo)
    (path : List String) :
    (env.evalSymlinks path = (path, none) →
      resolveSymlink env fileinfo path = .ok fileinfo) ∧
    (∀ e (fr : FileReader) (folderID : Int)
        (m : List LibraryElementsProvisioning),
      resolveSymlink env fileinfo path = .error e →
      saveLibraryElements env fr path folderID fileinfo m =
        (provisioningMetadataEmpty, some e, [])) := by
  constructor
  · intro h
    simp [resolveSymlink, h]
  · intro e fr folderID m h
    unfold saveLibraryElements
    simp only [h]

/-- Environment whose symlink resolution fails for every path. -/
def envSymErr : Env :=
  { envScanBase with
      evalSymlinks := fun _ => ([], some (Err.ioError "eval")),
      lstat := fun _ => .error (Err.ioError "lstatfail") }

/-- C8 (counterexample): when symlink resolution fails, the engine does NOT
fall back to the original metadata — `saveLibraryElements` returns the
error with empty metadata and no storage call, while the identical file is
saved when resolution succeeds. -/
theorem symlink_failure_not_fallback :
    resolveSymlink envSymErr fiA ["root", "a.json"] =
      .error (Err.ioError "lstatfail") ∧
    saveLibraryElements envSymErr frFlat ["root", "a.json"] 0 fiA [] =
      (provisioningMetadataEmpty, some (Err.ioError "lstatfail"), []) ∧
    (saveLibraryElements { envSymErr with evalSymlinks := fun p => (p, none) }
      frFlat ["root", "a.json"] 0 fiA []).2.2 =
      [StorageCall.save ["root", "a.json"] "A" 5 "body" 0] := by
  refine ⟨rfl, rfl, rfl⟩

/-- Witness for the amended C8 theorem at the failing environment. -/
theorem resolveSymlink_failure_skips_file_witness :
    saveLibraryElements envSymErr frFlat ["root", "b.json"] 0 fiA [] =
      (provisioningMetadataEmpty, some (Err.ioError "lstatfail"), []) :=
  (resolveSymlink_failure_skips_file envSymErr fiA ["root", "b.json"]).2
    (Err.ioError "lstatfail") frFlat 0 [] rfl

/-- A file on disk is in the "unchanged since last successful scan" state:
its metadata resolves, its content reads and parses, and the provisioned
record for its path stores exactly the recomputed checksum. -/
def upToDateOnDisk (env : Env) (m : List LibraryElementsProvisioning)
    (x : List String × FileInfo) : Bool :=
  (match resolveSymlink env x.2 x.1 with
   | .ok _ => true
   | .error _ => false) &&
  (match env.readFile x.1 with
   | .error _ => false
   | .ok content =>
     (match env.parse content with
      | .ok _ => true
      | .error _ => false) &&
     (match byPathLookup m x.1 with
      | some pd => env.checksum content == pd.CheckSum
      | none => false))

/-- A folder name resolves without creating anything: either empty (the
tolerated no-folder condition) or found in storage as an actual folder. -/
def folderResolvable (env : Env) (cfg : config) (name : String) : Bool :=
  name == "" ||
  (match env.folderQuery (env.slugify name) cfg.OrgID with
   | .ok r => r.IsFolder
   | .error _ => false)

/-- An up-to-date file produces a nil error and no storage call. -/
theorem saveLibraryElements_unchanged (env : Env) (fr : FileReader)
    (path : List String) (folderID : Int) (fi : FileInfo)
    (m : List LibraryElementsProvisioning)
    (h : upToDateOnDisk env m (path, fi) = true) :
    (saveLibraryElements env fr path folderID fi m).2.1 = none ∧
    (saveLibraryElements env fr path folderID fi m).2.2 = [] := by
  unfold upToDateOnDisk at h
  rcases hr : resolveSymlink env fi path with e | rfi <;> rw [hr] at h
  · simp at h
  rcases hread : env.readFile path with e | content <;> rw [hread] at h
  · simp at h
  simp only [Bool.true_and] at h
  rcases hparse : env.parse content with e | data <;> rw [hparse] at h
  · simp at h
  rcases hlook : byPathLookup m path with _ | pd <;> rw [hlook] at h
  · simp at h
  simp only [Bool.true_and, Bool.and_eq_true] at h
  have hjf : readLibraryElementsFromFile env fr.Cfg path rfi.modTime folderID =
      .ok { LibraryElements := createLibraryElementsJSON data rfi.modTime fr.Cfg folderID,
            checkSum := env.checksum content, lastModified := rfi.modTime } := by
    unfold readLibraryElementsFromFile
    rw [hread]
    simp only [hparse]
  have hupd : isUpToDate m path (env.checksum content) = true := by
    unfold isUpToDate
    rw [hlook]
    exact h
  constructor <;>
  · unfold saveLibraryElements
    simp [hr, hjf, hupd]

/-- A resolvable folder name yields no error (beyond the tolerated
`ErrFolderNameMissing`) and no creation call. -/
theorem getOrCreateFolderID_resolvable (env : Env) (cfg : config) (name : String)
    (h : folderResolvable env cfg name = true) :
    ((getOrCreateFolderID env cfg name).2.1 = none ∨
     (getOrCreateFolderID env cfg name).2.1 = some Err.folderNameMissing) ∧
    (getOrCreateFolderID env cfg name).2.2 = [] := by
  unfold folderResolvable at h
  by_cases hn : name = ""
  · subst hn
    simp [getOrCreateFolderID]
  · have hbn : (name == "") = false := by simp [hn]
    rw [hbn, Bool.false_or] at h
    rcases hq : env.folderQuery (env.slugify name) cfg.OrgID with e | r
    · rw [hq] at h; simp at h
    · rw [hq] at h
      simp at h
      unfold getOrCreateFolderID
      rw [if_neg hn, hq]
      simp [h]

/-- An all-up-to-date flat pass loops to completion with no error and no
calls. -/
theorem storeDashboardsInFolderLoop_unchanged (env : Env) (fr : FileReader)
    (folderID : Int) (m : List LibraryElementsProvisioning)
    (files : List (List String × FileInfo)) (t : usageTracker)
    (h : ∀ x ∈ files, upToDateOnDisk env m x = true) :
    (storeDashboardsInFolderLoop env fr folderID m files t).2.1 = none ∧
    (storeDashboardsInFolderLoop env fr folderID m files t).2.2 = [] := by
  induction files generalizing t with
  | nil => exact ⟨rfl, rfl⟩
  | cons x rest ih =>
    obtain ⟨path, fi⟩ := x
    have hs := saveLibraryElements_unchanged env fr path folderID fi m
      (h (path, fi) (by simp))
    have ihr := fun t2 => ih t2 (fun y hy => h y (List.mem_cons_of_mem _ hy))
    constructor <;>
    · conv_lhs => rw [storeDashboardsInFolderLoop]
      simp [hs.1, hs.2, (ihr _).1, (ihr _).2]

/-- An all-up-to-date mirrored pass with resolvable folders completes with
no error and no calls. -/
theorem storeMirrored_unchanged (env : Env) (fr : FileReader)
    (m : List LibraryElementsProvisioning) (root : List String)
    (files : List (List String × FileInfo)) (t : usageTracker)
    (hup : ∀ x ∈ files, upToDateOnDisk env m x = true)
    (hfold : ∀ x ∈ files,
      folderResolvable env fr.Cfg (mirroredFolderName root x.1) = true) :
    (storeLibraryElementsInFoldersFromFileStructure env fr m root files t).2.1 =
      none ∧
    (storeLibraryElementsInFoldersFromFileStructure env fr m root files t).2.2 =
      [] := by
  induction files generalizing t with
  | nil => exact ⟨rfl, rfl⟩
  | cons x rest ih =>
    obtain ⟨path, fi⟩ := x
    have hf := getOrCreateFolderID_resolvable env fr.Cfg
      (mirroredFolderName root path) (hfold (path, fi) (by simp))
    have hs := saveLibraryElements_unchanged env fr path
      (getOrCreateFolderID env fr.Cfg (mirroredFolderName root path)).1 fi m
      (hup (path, fi) (by simp))
    have ihr := fun t2 => ih t2 (fun y hy => hup y (List.mem_cons_of_mem _ hy))
      (fun y hy => hfold y (List.mem_cons_of_mem _ hy))
    rcases hf.1 with hfe | hfe <;>
    · constructor <;>
      · conv_lhs => rw [storeLibraryElementsInFoldersFromFileStructure]
        simp [hfe, hf.2, hs.2, (ihr _).1, (ihr _).2]

/-- When every provisioned path is present on disk, the deletion pass
issues nothing. -/
theorem handleMissing_all_present (fr : FileReader)
    (m : List LibraryElementsProvisioning)
    (files : List (List String × FileInfo))
    (h : ∀ pd ∈ m, files.any (fun x => x.1 == pd.ExternalId) = true) :
    handleMissingLibraryElementsFiles fr m files = [] := by
  unfold handleMissingLibraryElementsFiles
  have hf : m.filter (fun pd => !(files.any (fun x => x.1 == pd.ExternalId))) = [] := by
    rw [List.filter_eq_nil_iff]
    intro pd hpd
    simp [h pd hpd]
  split <;> simp [hf]

/-- C5: reconciliation is idempotent with respect to storage writes — a
scan over a disk whose files are all unchanged since the previous
successful scan (every file up to date, every provisioned path present,
every needed folder already existing) succeeds, classifies every file as
up to date, and issues zero storage calls. -/
theorem walkDisk_idempotent (env : Env) (fr : FileReader)
    (arr : List LibraryElementsProvisioning)
    (hstat : env.statRootErr (env.resolveRoot fr.Path) = none)
    (hget : env.getProvisionedData fr.Cfg.Name = .ok arr)
    (hwalk : env.walkErr = none)
    (hpresent : ∀ pd ∈ byPath arr,
      (walkFrom (env.resolveRoot fr.Path) env.rootTree).any
        (fun x => x.1 == pd.ExternalId) = true)
    (hup : ∀ x ∈ walkFrom (env.resolveRoot fr.Path) env.rootTree,
      upToDateOnDisk env (byPath arr) x = true)
    (hfold : ∀ x ∈ walkFrom (env.resolveRoot fr.Path) env.rootTree,
      folderResolvable env fr.Cfg
        (mirroredFolderName (env.resolveRoot fr.Path) x.1) = true)
    (hfoldFlat : folderResolvable env fr.Cfg fr.Cfg.Folder = true) :
    (walkDisk env fr).2.1 = none ∧ (walkDisk env fr).2.2 = [] ∧
    (∀ x ∈ walkFrom (env.resolveRoot fr.Path) env.rootTree,
      ∃ content, env.readFile x.1 = .ok content ∧
        isUpToDate (byPath arr) x.1 (env.checksum content) = true) := by
  have hmissing := handleMissing_all_present fr (byPath arr)
    (walkFrom (env.resolveRoot fr.Path) env.rootTree) hpresent
  have hrefs : getProvisionedLibraryElementssByPath env fr.Cfg.Name =
      .ok (byPath arr) := by
    unfold getProvisionedLibraryElementssByPath
    rw [hget]
  have hstore :
      (if fr.FoldersFromFilesStructure then
        storeLibraryElementsInFoldersFromFileStructure env fr (byPath arr)
          (env.resolveRoot fr.Path)
          (walkFrom (env.resolveRoot fr.Path) env.rootTree) newUsageTracker
      else
        storeDashboardsInFolder env fr
          (walkFrom (env.resolveRoot fr.Path) env.rootTree) (byPath arr)
          newUsageTracker).2.1 = none ∧
      (if fr.FoldersFromFilesStructure then
        storeLibraryElementsInFoldersFromFileStructure env fr (byPath arr)
          (env.resolveRoot fr.Path)
          (walkFrom (env.resolveRoot fr.Path) env.rootTree) newUsageTracker
      else
        storeDashboardsInFolder env fr
          (walkFrom (env.resolveRoot fr.Path) env.rootTree) (byPath arr)
          newUsageTracker).2.2 = [] := by
    by_cases hm : fr.FoldersFromFilesStructure = true
    · simp only [hm, if_true]
      exact storeMirrored_unchanged env fr (byPath arr) (env.resolveRoot fr.Path)
        (walkFrom (env.resolveRoot fr.Path) env.rootTree) newUsageTracker hup hfold
    · simp only [hm, if_false]
      have hff := getOrCreateFolderID_resolvable env fr.Cfg fr.Cfg.Folder hfoldFlat
      have hloop := storeDashboardsInFolderLoop_unchanged env fr
        (getOrCreateFolderID env fr.Cfg fr.Cfg.Folder).1 (byPath arr)
        (walkFrom (env.resolveRoot fr.Path) env.rootTree) newUsageTracker hup
      rcases hff.1 with hfe | hfe <;>
      · constructor <;>
        · unfold storeDashboardsInFolder
          simp [hfe, hff.2, hloop.1, hloop.2]

  refine ⟨?_, ?_, ?_⟩
  · unfold walkDisk
    simp only [hstat, hrefs, hwalk, hmissing, hstore.1, List.nil_append]
  · unfold walkDisk
    simp only [hstat, hrefs, hwalk, hmissing, hstore.1, hstore.2, List.nil_append]
  · intro x hx
    have h := hup x hx
    unfold upToDateOnDisk at h
    rcases hread : env.readFile x.1 with e | content
    · rw [hread] at h; simp at h
    · refine ⟨content, rfl, ?_⟩
      rw [hread] at h
      rcases hlook : byPathLookup (byPath arr) x.1 with _ | pd
      · rw [hlook] at h; simp at h
      · rw [hlook] at h
        simp only [Bool.and_eq_true] at h
        unfold isUpToDate
        rw [hlook]
        exact h.2.2

/-- One file `root/a.json` whose provisioned checksum already matches. -/
def envUpToDate : Env :=
  { envScanBase with
      rootTree := .dir "root" [.file "a.json" 5],
      getProvisionedData := fun _ => .ok [refBody] }

/-- Witness for the C5 theorem: the second scan over the unchanged disk
issues no storage call and succeeds. -/
theorem walkDisk_idempotent_witness :
    (walkDisk envUpToDate frFlat).2.1 = none ∧
    (walkDisk envUpToDate frFlat).2.2 = [] := by
  have h := walkDisk_idempotent envUpToDate frFlat [refBody] rfl rfl rfl
    (by intro pd hpd
        simp [byPath, envUpToDate, envScanBase, refBody] at hpd
        subst hpd
        simp [walkFrom, walkList, entryName, envUpToDate, envScanBase, refBody]
        decide)
    (by intro x hx
        simp [walkFrom, walkList, entryName, envUpToDate, envScanBase] at hx
        obtain ⟨-, -, rfl⟩ := hx
        decide)
    (by intro x hx
        simp [walkFrom, walkList, entryName, envUpToDate, envScanBase] at hx
        obtain ⟨-, -, rfl⟩ := hx
        decide)
    (by decide)
  exact ⟨h.1, h.2.1⟩

end Panelelements
